import Mathlib

/-!
Verification of the offline-first encrypted health-log core: a shallow
embedding in Lean 4 of the cipher wrapper (`EncryptionService`), the local
record store (`DatabaseService`), the encrypt/validate CRUD wrapper
(`HealthLogService`) and the sync engine (`SyncService`), together with
theorems settling the specification claims about them.

Conventions of the embedding:
* TypeScript `async` methods are modelled as pure functions threading
  explicit state (the database, the sync-service flags); thrown exceptions
  become `Except String` with the exact thrown message.
* External collaborators (the remote store, the platform SQL driver's
  failure modes) are supplied by an environment record of outcome
  functions, so every code path of the embedded functions is reachable.
* JavaScript string builtins (`trim`, `toLowerCase`, `includes`) are
  modelled as executable Lean functions on the character list of the
  string, faithful to their behaviour on the ASCII data the code handles.
-/

/-- Model of JS `String.prototype.trim`: strip whitespace from both ends. -/
def jsTrim (s : String) : String :=
  String.mk (((s.data.dropWhile Char.isWhitespace).reverse.dropWhile Char.isWhitespace).reverse)

/-- Model of JS `String.prototype.toLowerCase` (ASCII-faithful). -/
def jsToLower (s : String) : String :=
  String.mk (s.data.map Char.toLower)

/-- Contiguous-sublist test on character lists, used to model JS
`String.prototype.includes`. -/
def listContainsSub (needle : List Char) : List Char → Bool
  | [] => needle.isEmpty
  | c :: t => needle.isPrefixOf (c :: t) || listContainsSub needle t

/-- Model of JS `String.prototype.includes`. -/
def jsIncludes (s pat : String) : Bool :=
  listContainsSub pat.data s.data

/-- Unary digits: the length marker used by the serialization model. -/
def unaryChars (n : Nat) : List Char :=
  List.replicate n '1'

/-- Parse a unary length marker terminated by a colon. -/
def parseUnary : List Char → Option (Nat × List Char)
  | [] => none
  | c :: cs =>
    if c = '1' then (parseUnary cs).map (fun p => (p.1 + 1, p.2))
    else if c = ':' then some (0, cs)
    else none

/-- Length-prefixed chunk encoding for an arbitrary character list. -/
def encChunk (s : List Char) : List Char :=
  unaryChars s.length ++ ':' :: s

/-- Parse a length-prefixed chunk; returns the chunk and the rest. -/
def parseChunk (l : List Char) : Option (List Char × List Char) :=
  match parseUnary l with
  | none => none
  | some (n, rest) =>
    if n ≤ rest.length then some (rest.take n, rest.drop n) else none

theorem parseUnary_encode (n : Nat) (rest : List Char) :
    parseUnary (unaryChars n ++ ':' :: rest) = some (n, rest) := by
  induction n with
  | zero => simp [unaryChars, parseUnary]
  | succ k ih => simp [unaryChars, parseUnary, List.replicate_succ] at ih ⊢; simp [ih]

theorem take_len_append (a b : List Char) : (a ++ b).take a.length = a := by
  induction a with
  | nil => simp
  | cons c t ih => simp [ih]

theorem drop_len_append (a b : List Char) : (a ++ b).drop a.length = b := by
  induction a with
  | nil => simp
  | cons c t ih => simp [ih]

theorem parseChunk_encode (s rest : List Char) :
    parseChunk (encChunk s ++ rest) = some (s, rest) := by
  simp only [encChunk, List.append_assoc, List.cons_append, parseChunk, parseUnary_encode]
  simp [take_len_append, drop_len_append, List.length_append]

theorem string_mk_data (s : String) : String.mk s.data = s := by
  cases s; rfl

/-- Modelled from the spec: the `CryptoJS.AES.encrypt` primitive (an external
library, absent from the repository). The spec requires a ciphertext string
that embeds everything needed for decryption, with fresh per-call randomness
(`iv`); the model packs the randomness, the key and the plaintext into one
reversible string. -/
def aesEncryptRaw (data key : String) (iv : Nat) : String :=
  String.mk (unaryChars iv ++ ':' :: (encChunk key.data ++ data.data))

/-- Modelled from the spec: the `CryptoJS.AES.decrypt` primitive. A wrong key
or malformed ciphertext yields the empty string (the UTF-8 decode failure the
wrapper tests for); the matching key recovers the plaintext. -/
def aesDecryptRaw (c key : String) : String :=
  match parseUnary c.data with
  | none => ""
  | some (_, rest) =>
    match parseChunk rest with
    | none => ""
    | some (k, p) => if k = key.data then String.mk p else ""

theorem aesDecryptRaw_encrypt (data key : String) (iv : Nat) :
    aesDecryptRaw (aesEncryptRaw data key iv) key = data := by
  simp [aesEncryptRaw, aesDecryptRaw, parseUnary_encode, parseChunk_encode, string_mk_data]

theorem aesEncryptRaw_ne_empty (data key : String) (iv : Nat) :
    aesEncryptRaw data key iv ≠ "" := by
  simp only [aesEncryptRaw]
  intro h
  have : (String.mk (unaryChars iv ++ ':' :: (encChunk key.data ++ data.data))).data =
      ("" : String).data := by rw [h]
  simp at this

/-- Result record of `EncryptionService.encrypt` (src: part_012). -/
structure EncryptionResult where
  encryptedData : String
  success : Bool
  error : Option String
  deriving DecidableEq

/-- Result record of `EncryptionService.decrypt` (src: part_012). -/
structure DecryptionResult where
  decryptedData : String
  success : Bool
  error : Option String
  deriving DecidableEq

/-- Embedding of `EncryptionService.encrypt` (src: part_012, lines 30-55).
The fresh randomness CryptoJS draws per call is the explicit `iv` argument. -/
def EncryptionService.encrypt (data key : String) (iv : Nat) : EncryptionResult :=
  if data = "" || key = "" then
    { encryptedData := "", success := false,
      error := some "Data and key are required for encryption" }
  else
    { encryptedData := aesEncryptRaw data key iv, success := true, error := none }

/-- Embedding of `EncryptionService.decrypt` (src: part_012, lines 63-96). -/
def EncryptionService.decrypt (encryptedData key : String) : DecryptionResult :=
  if encryptedData = "" || key = "" then
    { decryptedData := "", success := false,
      error := some "Encrypted data and key are required for decryption" }
  else
    let d := aesDecryptRaw encryptedData key
    if d = "" then
      { decryptedData := "", success := false,
        error := some "Decryption failed: Invalid key or corrupted data" }
    else
      { decryptedData := d, success := true, error := none }

/-- C4: for every non-empty plaintext `p` and non-empty key `k` (and any
per-call randomness `iv`), `encrypt(p, k)` succeeds, and `decrypt` applied to
its ciphertext with the same key succeeds and returns exactly `p`. -/
theorem cipher_round_trip (p k : String) (iv : Nat) (hp : p ≠ "") (hk : k ≠ "") :
    (EncryptionService.encrypt p k iv).success = true ∧
    EncryptionService.decrypt (EncryptionService.encrypt p k iv).encryptedData k =
      { decryptedData := p, success := true, error := none } := by
  have henc : EncryptionService.encrypt p k iv =
      { encryptedData := aesEncryptRaw p k iv, success := true, error := none } := by
    simp [EncryptionService.encrypt, hp, hk]
  refine ⟨by simp [henc], ?_⟩
  rw [henc]
  simp only [EncryptionService.decrypt, aesDecryptRaw_encrypt]
  simp [aesEncryptRaw_ne_empty p k iv, hk, hp]

/-- Witness for C4 at a concrete plaintext and key. -/
theorem cipher_round_trip_witness :
    ("hello" : String) ≠ "" ∧ ("k1" : String) ≠ "" ∧
    ((EncryptionService.encrypt "hello" "k1" 2).success = true ∧
     EncryptionService.decrypt (EncryptionService.encrypt "hello" "k1" 2).encryptedData "k1" =
       { decryptedData := "hello", success := true, error := none }) :=
  ⟨by decide, by decide, cipher_round_trip "hello" "k1" 2 (by decide) (by decide)⟩

/-- String chunk inside a serialized record. -/
def encStr (s : String) : List Char :=
  encChunk s.data

/-- Parse one string chunk. -/
def parseStr (l : List Char) : Option (String × List Char) :=
  (parseChunk l).map (fun p => (String.mk p.1, p.2))

theorem parseStr_encode (s : String) (rest : List Char) :
    parseStr (encStr s ++ rest) = some (s, rest) := by
  simp [parseStr, encStr, parseChunk_encode, string_mk_data]

/-- Optional-string field of a serialized record. -/
def encOptStr : Option String → List Char
  | none => ['n']
  | some s => 's' :: encStr s

/-- Parse an optional-string field. -/
def parseOptStr : List Char → Option (Option String × List Char)
  | [] => none
  | c :: t =>
    if c = 'n' then some (none, t)
    else if c = 's' then (parseStr t).map (fun p => (some p.1, p.2))
    else none

theorem parseOptStr_encode (o : Option String) (rest : List Char) :
    parseOptStr (encOptStr o ++ rest) = some (o, rest) := by
  cases o with
  | none => simp [encOptStr, parseOptStr]
  | some s => simp [encOptStr, parseOptStr, parseStr_encode]

/-- Optional-number field of a serialized record. -/
def encOptNat : Option Nat → List Char
  | none => ['n']
  | some n => 's' :: (unaryChars n ++ [':'])

/-- Parse an optional-number field. -/
def parseOptNat : List Char → Option (Option Nat × List Char)
  | [] => none
  | c :: t =>
    if c = 'n' then some (none, t)
    else if c = 's' then (parseUnary t).map (fun p => (some p.1, p.2))
    else none

theorem parseOptNat_encode (o : Option Nat) (rest : List Char) :
    parseOptNat (encOptNat o ++ rest) = some (o, rest) := by
  cases o with
  | none => simp [encOptNat, parseOptNat]
  | some n =>
    have : (('s' :: (unaryChars n ++ [':'])) ++ rest) =
        's' :: (unaryChars n ++ ':' :: rest) := by simp
    simp [encOptNat, parseOptNat, this, parseUnary_encode]

/-- String-list field of a serialized record. -/
def encListStr (l : List String) : List Char :=
  unaryChars l.length ++ ':' :: l.foldr (fun s acc => encStr s ++ acc) []

/-- Parse `n` consecutive string chunks. -/
def parseStrs : Nat → List Char → Option (List String × List Char)
  | 0, l => some ([], l)
  | n + 1, l =>
    match parseStr l with
    | none => none
    | some (s, r) => (parseStrs n r).map (fun p => (s :: p.1, p.2))

/-- Parse a string-list field. -/
def parseListStr (l : List Char) : Option (List String × List Char) :=
  match parseUnary l with
  | none => none
  | some (n, rest) => parseStrs n rest

theorem parseStrs_encode (l : List String) (rest : List Char) :
    parseStrs l.length (l.foldr (fun s acc => encStr s ++ acc) [] ++ rest) =
      some (l, rest) := by
  induction l with
  | nil => simp [parseStrs]
  | cons s t ih => simp [parseStrs, parseStr_encode, ih]

theorem parseListStr_encode (l : List String) (rest : List Char) :
    parseListStr (encListStr l ++ rest) = some (l, rest) := by
  simp [parseListStr, encListStr, parseUnary_encode, parseStrs_encode]

/-- Optional string-list field of a serialized record. -/
def encOptListStr : Option (List String) → List Char
  | none => ['n']
  | some l => 's' :: encListStr l

/-- Parse an optional string-list field. -/
def parseOptListStr : List Char → Option (Option (List String) × List Char)
  | [] => none
  | c :: t =>
    if c = 'n' then some (none, t)
    else if c = 's' then (parseListStr t).map (fun p => (some p.1, p.2))
    else none

theorem parseOptListStr_encode (o : Option (List String)) (rest : List Char) :
    parseOptListStr (encOptListStr o ++ rest) = some (o, rest) := by
  cases o with
  | none => simp [encOptListStr, parseOptListStr]
  | some l => simp [encOptListStr, parseOptListStr, parseListStr_encode]

/-- Plaintext domain record (src: types/healthLog.ts, `HealthLog`). The
`category` and `severity` fields keep their runtime representations
(arbitrary string / optional number) so the validator's membership checks
stay real. -/
structure HealthLog where
  id : String
  title : String
  description : String
  category : String
  severity : Option Nat
  tags : List String
  date : String
  notes : Option String
  attachments : Option (List String)
  deriving DecidableEq

/-- Modelled from the spec: `JSON.stringify` of a domain record (a JS
builtin), modelled as an injective field-by-field serialization. -/
def serializeHealthLog (h : HealthLog) : String :=
  String.mk (encStr h.id ++ encStr h.title ++ encStr h.description ++
    encStr h.category ++ encOptNat h.severity ++ encListStr h.tags ++
    encStr h.date ++ encOptStr h.notes ++ encOptListStr h.attachments)

/-- Modelled from the spec: `JSON.parse` back to a domain record; `none`
models the exception thrown on malformed input. -/
def parseHealthLog (s : String) : Option HealthLog :=
  match parseStr s.data with
  | none => none
  | some (id, r1) =>
  match parseStr r1 with
  | none => none
  | some (title, r2) =>
  match parseStr r2 with
  | none => none
  | some (description, r3) =>
  match parseStr r3 with
  | none => none
  | some (category, r4) =>
  match parseOptNat r4 with
  | none => none
  | some (severity, r5) =>
  match parseListStr r5 with
  | none => none
  | some (tags, r6) =>
  match parseStr r6 with
  | none => none
  | some (date, r7) =>
  match parseOptStr r7 with
  | none => none
  | some (notes, r8) =>
  match parseOptListStr r8 with
  | none => none
  | some (attachments, r9) =>
    if r9 = [] then
      some { id := id, title := title, description := description,
             category := category, severity := severity, tags := tags,
             date := date, notes := notes, attachments := attachments }
    else none

theorem parseHealthLog_serialize (h : HealthLog) :
    parseHealthLog (serializeHealthLog h) = some h := by
  have hd : (serializeHealthLog h).data =
      encStr h.id ++ (encStr h.title ++ (encStr h.description ++
      (encStr h.category ++ (encOptNat h.severity ++ (encListStr h.tags ++
      (encStr h.date ++ (encOptStr h.notes ++ (encOptListStr h.attachments ++ ([] : List Char))))))))) := by
    simp [serializeHealthLog]
  rw [parseHealthLog, hd]
  simp only [parseStr_encode, parseOptNat_encode, parseListStr_encode,
    parseOptStr_encode, parseOptListStr_encode]
  simp

/-- One field-validation failure (src: types/healthLog.ts). -/
structure HealthLogValidationError where
  field : String
  message : String
  deriving DecidableEq

/-- Aggregate validation outcome (src: types/healthLog.ts). -/
structure HealthLogValidationResult where
  isValid : Bool
  errors : List HealthLogValidationError
  deriving DecidableEq

/-- Modelled from the spec: JS `new Date(s).getTime()` on the ISO date
strings the app stores. Returns `none` for a string JS would reject
(`isNaN(getTime())`), and a value monotone in chronological order for the
fixed-width ISO strings the app compares. -/
def jsDateValue (s : String) : Option Nat :=
  if s.data.isEmpty then none
  else if s.data.all (fun c =>
      c.isDigit || c = '-' || c = ':' || c = 'T' || c = '.' || c = 'Z') then
    some (s.data.foldl (fun n c => n * 256 + c.toNat) 0)
  else none

/-- Tag errors of `validateHealthLogData`, carrying the element index
(src: utils/healthLogValidation.ts, lines 54-67; the `typeof` guard is
vacuous in the typed embedding). -/
def tagErrorsFrom (i : Nat) : List String → List HealthLogValidationError
  | [] => []
  | tag :: rest =>
    (if jsTrim tag = "" then
      [{ field := "tags", message := "Tag at index " ++ toString i ++ " cannot be empty" }]
     else if tag.length > 50 then
      [{ field := "tags", message := "Tag at index " ++ toString i ++ " must be 50 characters or less" }]
     else []) ++ tagErrorsFrom (i + 1) rest

/-- Attachment errors of `validateHealthLogData`
(src: utils/healthLogValidation.ts, lines 91-103). -/
def attachmentErrorsFrom (i : Nat) : List String → List HealthLogValidationError
  | [] => []
  | a :: rest =>
    (if jsTrim a = "" then
      [{ field := "attachments", message := "Attachment at index " ++ toString i ++ " cannot be empty" }]
     else []) ++ attachmentErrorsFrom (i + 1) rest

/-- Embedding of `validateHealthLogData`
(src: utils/healthLogValidation.ts, lines 13-109), applied to a full merged
record as the update path does; `now` is the clock read by `new Date()`.
The `typeof`/`Array.isArray` guards are vacuous in the typed embedding. -/
def validateHealthLogData (data : HealthLog) (now : Nat) : HealthLogValidationResult :=
  let titleErrors :=
    if data.title = "" then
      [{ field := "title", message := "Title is required and must be a string" }]
    else if jsTrim data.title = "" then
      [{ field := "title", message := "Title cannot be empty" }]
    else if data.title.length > 200 then
      [{ field := "title", message := "Title must be 200 characters or less" }]
    else []
  let descriptionErrors :=
    if data.description = "" then
      [{ field := "description", message := "Description is required and must be a string" }]
    else if jsTrim data.description = "" then
      [{ field := "description", message := "Description cannot be empty" }]
    else if data.description.length > 2000 then
      [{ field := "description", message := "Description must be 2000 characters or less" }]
    else []
  let categoryErrors :=
    if data.category = "" then
      [{ field := "category", message := "Category is required and must be a string" }]
    else if !(["symptom", "medication", "appointment", "measurement", "other"].contains data.category) then
      [{ field := "category",
         message := "Category must be one of: symptom, medication, appointment, measurement, other" }]
    else []
  let severityErrors :=
    match data.severity with
    | none => []
    | some s =>
      if !([1, 2, 3, 4, 5].contains s) then
        [{ field := "severity", message := "Severity must be a number between 1 and 5" }]
      else []
  let tagErrors := tagErrorsFrom 0 data.tags
  let dateErrors :=
    if data.date = "" then
      [{ field := "date", message := "Date is required and must be a string" }]
    else
      match jsDateValue data.date with
      | none => [{ field := "date", message := "Date must be a valid ISO date string" }]
      | some v =>
        if v > now then [{ field := "date", message := "Date cannot be in the future" }]
        else []
  let notesErrors :=
    match data.notes with
    | none => []
    | some nt =>
      if nt.length > 5000 then
        [{ field := "notes", message := "Notes must be 5000 characters or less" }]
      else []
  let attachmentErrors :=
    match data.attachments with
    | none => []
    | some l => attachmentErrorsFrom 0 l
  let errors := titleErrors ++ descriptionErrors ++ categoryErrors ++ severityErrors ++
    tagErrors ++ dateErrors ++ notesErrors ++ attachmentErrors
  { isValid := errors.isEmpty, errors := errors }

/-- Update patch (src: types/healthLog.ts, `UpdateHealthLogData`): `id` is
mandatory, every other field optional; an absent field is `none` (the claims
never exercise the JS corner of a property that is present but explicitly
`undefined`). -/
structure UpdateHealthLogData where
  id : String
  title : Option String
  description : Option String
  category : Option String
  severity : Option Nat
  tags : Option (List String)
  date : Option String
  notes : Option String
  attachments : Option (List String)
  deriving DecidableEq

/-- The merge step of `HealthLogService.updateHealthLog` (src: part_011,
lines 364-369): patch fields override, the domain id is pinned to the
existing record's id. -/
def mergePatch (existingLog : HealthLog) (data : UpdateHealthLogData) : HealthLog :=
  { id := existingLog.id
    title := data.title.getD existingLog.title
    description := data.description.getD existingLog.description
    category := data.category.getD existingLog.category
    severity := match data.severity with
      | some v => some v
      | none => existingLog.severity
    tags := data.tags.getD existingLog.tags
    date := data.date.getD existingLog.date
    notes := match data.notes with
      | some v => some v
      | none => existingLog.notes
    attachments := match data.attachments with
      | some v => some v
      | none => existingLog.attachments }

/-- The inline sanitize step of `HealthLogService.updateHealthLog`
(src: part_011, lines 371-379). -/
def sanitizeUpdatedLog (h : HealthLog) : HealthLog :=
  { h with
    title := jsTrim h.title
    description := jsTrim h.description
    tags := (h.tags.map jsTrim).filter (fun t => t.length > 0)
    notes := h.notes.map jsTrim
    attachments := h.attachments.map
      (fun l => (l.map jsTrim).filter (fun a => a.length > 0)) }

/-- One row of the local `health_logs` table (src: part_007,
`HealthLogRecord`); timestamps are abstract clock readings. -/
structure HealthLogRecord where
  id : Nat
  user_id : Nat
  encrypted_data : String
  created_at : Nat
  updated_at : Nat
  synced_at : Option Nat
  cloud_id : Option String
  deriving DecidableEq

/-- The local store after schema setup: the `health_logs` rows in insertion
order (`created_at` ascending, matching the store's monotone
`CURRENT_TIMESTAMP`) plus the AUTOINCREMENT counter. -/
structure DB where
  rows : List HealthLogRecord
  nextId : Nat
  deriving DecidableEq

/-- The store right after `initialize` has run the migrations. -/
def initialDB : DB :=
  { rows := [], nextId := 1 }

/-- Embedding of `DatabaseService.createHealthLog` (src: part_007, lines
168-183): INSERT with NULL `synced_at`/`cloud_id`; returns the new row id. -/
def DatabaseService.createHealthLog (db : DB) (userId : Nat) (encryptedData : String)
    (now : Nat) : DB × Nat :=
  ({ rows := db.rows ++
      [{ id := db.nextId, user_id := userId, encrypted_data := encryptedData,
         created_at := now, updated_at := now, synced_at := none, cloud_id := none }],
     nextId := db.nextId + 1 }, db.nextId)

/-- Embedding of `DatabaseService.getHealthLogById` (src: part_007, lines 203-217). -/
def DatabaseService.getHealthLogById (db : DB) (id : Nat) : Option HealthLogRecord :=
  db.rows.find? (fun r => r.id == id)

/-- Embedding of `DatabaseService.updateHealthLog` (src: part_007, lines
219-233): overwrites `encrypted_data` and refreshes `updated_at` only. -/
def DatabaseService.updateHealthLog (db : DB) (id : Nat) (encryptedData : String)
    (now : Nat) : DB :=
  { db with rows := db.rows.map (fun r =>
      if r.id = id then { r with encrypted_data := encryptedData, updated_at := now } else r) }

/-- Embedding of `DatabaseService.deleteHealthLog` (src: part_007, lines 235-247). -/
def DatabaseService.deleteHealthLog (db : DB) (id : Nat) : DB :=
  { db with rows := db.rows.filter (fun r => r.id ≠ id) }

/-- Embedding of `DatabaseService.markHealthLogAsSynced` (src: part_007,
lines 249-263): sets `synced_at` and `cloud_id` together. -/
def DatabaseService.markHealthLogAsSynced (db : DB) (id : Nat) (cloudId : String)
    (now : Nat) : DB :=
  { db with rows := db.rows.map (fun r =>
      if r.id = id then { r with synced_at := some now, cloud_id := some cloudId } else r) }

/-- Embedding of `DatabaseService.getUnsyncedHealthLogs` (src: part_007,
lines 265-281): rows of the owner with NULL `synced_at`, `created_at`
ascending (the stored order). -/
def DatabaseService.getUnsyncedHealthLogs (db : DB) (userId : Nat) : List HealthLogRecord :=
  db.rows.filter (fun r => r.user_id == userId && r.synced_at == none)

/-- Embedding of `DatabaseService.clearAllData` (src: part_007, lines 291-303). -/
def DatabaseService.clearAllData (db : DB) : DB :=
  { db with rows := [] }

/-- Modelled from the spec: the engine-specific message of the exception
`JSON.parse` throws on malformed input. -/
def jsonParseErrorMessage : String := "Unexpected token in JSON"

/-- Embedding of `HealthLogService.getHealthLog` (src: part_011, lines
296-315): `ok none` when no row exists, a wrapped error when decryption or
parsing fails. -/
def HealthLogService.getHealthLog (key : String) (db : DB) (healthLogId : Nat) :
    Except String (Option HealthLog) :=
  match DatabaseService.getHealthLogById db healthLogId with
  | none => .ok none
  | some encryptedLog =>
    let d := EncryptionService.decrypt encryptedLog.encrypted_data key
    if d.success then
      match parseHealthLog d.decryptedData with
      | some healthLog => .ok (some healthLog)
      | none => .error ("Failed to retrieve health log: " ++ jsonParseErrorMessage)
    else
      .error ("Failed to retrieve health log: " ++ d.error.getD "Decryption failed")

/-- Embedding of `HealthLogService.updateHealthLog` (src: part_011, lines
351-400); `iv` is the randomness of the re-encryption, `now` the clock. -/
def HealthLogService.updateHealthLog (key : String) (db : DB) (healthLogId : Nat)
    (data : UpdateHealthLogData) (iv now : Nat) : Except String HealthLog × DB :=
  if jsTrim data.id = "" then
    (.error "Validation failed: ID is required for updates and must be a string", db)
  else
    match HealthLogService.getHealthLog key db healthLogId with
    | .error e => (.error ("Failed to update health log: " ++ e), db)
    | .ok none => (.error "Failed to update health log: Health log not found", db)
    | .ok (some existingLog) =>
      let sanitizedLog := sanitizeUpdatedLog (mergePatch existingLog data)
      let completeValidation := validateHealthLogData sanitizedLog now
      if completeValidation.isValid then
        let enc := EncryptionService.encrypt (serializeHealthLog sanitizedLog) key iv
        if enc.success then
          (.ok sanitizedLog,
           DatabaseService.updateHealthLog db healthLogId enc.encryptedData now)
        else
          (.error ("Failed to update health log: " ++ enc.error.getD "Encryption failed"), db)
      else
        (.error ("Failed to update health log: Validation failed: " ++
          String.intercalate ", " (completeValidation.errors.map (fun e => e.message))), db)

/-- Embedding of `HealthLogService.deleteHealthLog` (src: part_011, lines
405-418): pre-reads via `getHealthLog`, so a row is deleted only after a
successful decrypt. -/
def HealthLogService.deleteHealthLog (key : String) (db : DB) (healthLogId : Nat) :
    Except String Unit × DB :=
  match HealthLogService.getHealthLog key db healthLogId with
  | .error e => (.error ("Failed to delete health log: " ++ e), db)
  | .ok none => (.error "Failed to delete health log: Health log not found", db)
  | .ok (some _) => (.ok (), DatabaseService.deleteHealthLog db healthLogId)

/-- Per-record sync failure entry (src: SyncService.ts, `SyncError`). -/
structure SyncError where
  localId : Nat
  error : String
  retryable : Bool
  deriving DecidableEq

/-- Batch result of a sync call (src: SyncService.ts, `SyncResult`). -/
structure SyncResult where
  success : Bool
  syncedCount : Nat
  failedCount : Nat
  errors : List SyncError
  deriving DecidableEq

/-- A JS value as tested by `isRetryableError`: an `Error` carrying a
message, or any non-`Error` value. -/
inductive JSValue where
  | error (message : String)
  | nonError
  deriving DecidableEq

/-- Embedding of `SyncService.isRetryableError` (src: SyncService.ts,
lines 265-292). -/
def SyncService.isRetryableError (e : JSValue) : Bool :=
  match e with
  | .nonError => false
  | .error msg =>
    let message := jsToLower msg
    if jsIncludes message "network" || jsIncludes message "timeout" ||
       jsIncludes message "connection" || jsIncludes message "fetch" then true
    else if jsIncludes message "500" || jsIncludes message "502" ||
       jsIncludes message "503" || jsIncludes message "504" then true
    else if jsIncludes message "rate limit" || jsIncludes message "429" then true
    else false

/-- Mutable fields of the `SyncService` singleton (src: SyncService.ts,
lines 30-31). -/
structure SyncServiceState where
  isSyncing : Bool
  deviceId : Option String
  deriving DecidableEq

/-- Environment of one sync call: the connectivity probe's answer, the
resolved remote identity, and the outcome the remote store / local driver
give each per-record operation (keyed by the local row id). `upload` is the
body of `uploadHealthLog`'s inner try (the Supabase insert); `markFail`
injects the local driver failure `markHealthLogAsSynced` would wrap. -/
structure SyncEnv where
  isOnline : Bool
  supabaseUser : Option String
  upload : Nat → Except String String
  markFail : Nat → Option String
  now : Nat

/-- Embedding of `SyncService.uploadHealthLog` (src: SyncService.ts, lines
167-191): wraps any transport failure. -/
def SyncService.uploadHealthLog (env : SyncEnv) (log : HealthLogRecord) :
    Except String String :=
  match env.upload log.id with
  | .ok cloudId => .ok cloudId
  | .error m => .error ("Failed to upload health log: " ++ m)

/-- The local-driver failure `markHealthLogAsSynced` surfaces, wrapped as the
source wraps it (src: part_007, lines 249-263). -/
def markSyncedOutcome (env : SyncEnv) (id : Nat) : Option String :=
  (env.markFail id).map (fun m => "Failed to mark health log as synced: " ++ m)

/-- The error entry the catch block of the per-record loop pushes
(src: SyncService.ts, lines 144-149). -/
def syncErrorEntry (id : Nat) (m : String) : SyncError :=
  { localId := id, error := m, retryable := SyncService.isRetryableError (.error m) }

/-- What the per-record loop body contributes for one record: `none` when the
record is uploaded and marked synced, otherwise the error entry appended to
the result (src: SyncService.ts, lines 138-151). -/
def SyncService.recordOutcome (env : SyncEnv) (log : HealthLogRecord) : Option SyncError :=
  match SyncService.uploadHealthLog env log with
  | .error m => some (syncErrorEntry log.id m)
  | .ok _ =>
    match markSyncedOutcome env log.id with
    | some m => some (syncErrorEntry log.id m)
    | none => none

/-- The per-record loop of `syncHealthLogs` (src: SyncService.ts, lines
137-151), strictly sequential; also returns the final store and the trace of
attempted uploads. -/
def SyncService.runSyncLoop (env : SyncEnv) : DB → List HealthLogRecord →
    SyncResult × DB × List Nat
  | db, [] => ({ success := true, syncedCount := 0, failedCount := 0, errors := [] }, db, [])
  | db, log :: rest =>
    match SyncService.uploadHealthLog env log with
    | .error m =>
      let res := SyncService.runSyncLoop env db rest
      ({ res.1 with failedCount := res.1.failedCount + 1,
                    errors := syncErrorEntry log.id m :: res.1.errors },
       res.2.1, log.id :: res.2.2)
    | .ok cloudId =>
      match markSyncedOutcome env log.id with
      | some m =>
        let res := SyncService.runSyncLoop env db rest
        ({ res.1 with failedCount := res.1.failedCount + 1,
                      errors := syncErrorEntry log.id m :: res.1.errors },
         res.2.1, log.id :: res.2.2)
      | none =>
        let db1 := DatabaseService.markHealthLogAsSynced db log.id cloudId env.now
        let res := SyncService.runSyncLoop env db1 rest
        ({ res.1 with syncedCount := res.1.syncedCount + 1 }, res.2.1, log.id :: res.2.2)

/-- Embedding of `SyncService.syncHealthLogs` (src: SyncService.ts, lines
94-162). Returns the call's outcome, the service state after the `finally`
block, the store, and the trace of upload attempts. Thrown precondition
errors inside the try block carry the outer catch's `Sync failed: ` wrap. -/
def SyncService.syncHealthLogs (env : SyncEnv) (st : SyncServiceState) (db : DB)
    (userId : Nat) : Except String SyncResult × SyncServiceState × DB × List Nat :=
  if st.isSyncing then (.error "Sync already in progress", st, db, [])
  else if st.deviceId = none then (.error "Sync service not initialized", st, db, [])
  else
    let stDone : SyncServiceState := { st with isSyncing := false }
    if !env.isOnline then
      (.error "Sync failed: No internet connection available", stDone, db, [])
    else if env.supabaseUser = none then
      (.error "Sync failed: User not authenticated with Supabase", stDone, db, [])
    else
      let unsyncedLogs := DatabaseService.getUnsyncedHealthLogs db userId
      if unsyncedLogs.isEmpty then
        (.ok { success := true, syncedCount := 0, failedCount := 0, errors := [] },
         stDone, db, [])
      else
        let res := SyncService.runSyncLoop env db unsyncedLogs
        (.ok { res.1 with
            success := decide (res.1.syncedCount > 0) || decide (res.1.failedCount = 0) },
         stDone, res.2.1, res.2.2)

/-- The retry loop of `retrySyncWithBackoff` over the remaining attempt
numbers (src: SyncService.ts, lines 297-315). Returns the outcome, how many
`sync` calls were made, and the list of backoff delays slept (ms). -/
def SyncService.retryRun (outcome : Nat → Except String SyncResult) (maxRetries : Nat) :
    List Nat → Option String → Except String SyncResult × Nat × List Nat
  | [], lastError => (.error (lastError.getD "Max retries exceeded"), 0, [])
  | attempt :: rest, _ =>
    match outcome attempt with
    | .ok r => (.ok r, 1, [])
    | .error e =>
      let res := SyncService.retryRun outcome maxRetries rest (some e)
      (res.1, res.2.1 + 1,
       (if attempt < maxRetries then [2 ^ (attempt - 1) * 1000] else []) ++ res.2.2)

/-- Embedding of `SyncService.retrySyncWithBackoff` (src: SyncService.ts,
lines 297-315); `outcome n` is what the n-th `syncHealthLogs` call does. -/
def SyncService.retrySyncWithBackoff (outcome : Nat → Except String SyncResult)
    (maxRetries : Nat) : Except String SyncResult × Nat × List Nat :=
  SyncService.retryRun outcome maxRetries (List.range' 1 maxRetries) none

theorem runSyncLoop_spec (env : SyncEnv) (logs : List HealthLogRecord) :
    ∀ db : DB,
      (SyncService.runSyncLoop env db logs).1.errors
          = logs.filterMap (SyncService.recordOutcome env)
        ∧ (SyncService.runSyncLoop env db logs).1.failedCount
          = (logs.filterMap (SyncService.recordOutcome env)).length
        ∧ (SyncService.runSyncLoop env db logs).1.syncedCount
            + (SyncService.runSyncLoop env db logs).1.failedCount = logs.length
        ∧ (SyncService.runSyncLoop env db logs).2.2 = logs.map (fun l => l.id) := by
  induction logs with
  | nil => intro db; simp [SyncService.runSyncLoop]
  | cons log rest ih =>
    intro db
    cases hup : SyncService.uploadHealthLog env log with
    | error m =>
      have hout : SyncService.recordOutcome env log = some (syncErrorEntry log.id m) := by
        simp [SyncService.recordOutcome, hup]
      obtain ⟨h1, h2, h3, h4⟩ := ih db
      simp only [SyncService.runSyncLoop, hup, List.filterMap_cons, hout, List.map_cons]
      refine ⟨by simp [h1], by simp [h2], by simp only [List.length_cons]; omega, by simp [h4]⟩
    | ok cloudId =>
      cases hmk : markSyncedOutcome env log.id with
      | some m =>
        have hout : SyncService.recordOutcome env log = some (syncErrorEntry log.id m) := by
          simp [SyncService.recordOutcome, hup, hmk]
        obtain ⟨h1, h2, h3, h4⟩ := ih db
        simp only [SyncService.runSyncLoop, hup, hmk, List.filterMap_cons, hout, List.map_cons]
        refine ⟨by simp [h1], by simp [h2], by simp only [List.length_cons]; omega, by simp [h4]⟩
      | none =>
        have hout : SyncService.recordOutcome env log = none := by
          simp [SyncService.recordOutcome, hup, hmk]
        obtain ⟨h1, h2, h3, h4⟩ :=
          ih (DatabaseService.markHealthLogAsSynced db log.id cloudId env.now)
        simp only [SyncService.runSyncLoop, hup, hmk, List.filterMap_cons, hout, List.map_cons]
        refine ⟨by simp [h1], by simp [h2], by simp only [List.length_cons]; omega, by simp [h4]⟩

theorem syncHealthLogs_eq_branch (env : SyncEnv) (st : SyncServiceState) (db : DB)
    (userId : Nat) (hguard : st.isSyncing = false) (hdev : st.deviceId ≠ none)
    (honline : env.isOnline = true) (hauth : env.supabaseUser ≠ none) :
    SyncService.syncHealthLogs env st db userId =
      (if (DatabaseService.getUnsyncedHealthLogs db userId).isEmpty then
        (.ok { success := true, syncedCount := 0, failedCount := 0, errors := [] },
         { st with isSyncing := false }, db, [])
      else
        ((.ok { SyncService.runSyncLoop env db (DatabaseService.getUnsyncedHealthLogs db userId)
                  |>.1 with
            success :=
              decide ((SyncService.runSyncLoop env db
                (DatabaseService.getUnsyncedHealthLogs db userId)).1.syncedCount > 0) ||
              decide ((SyncService.runSyncLoop env db
                (DatabaseService.getUnsyncedHealthLogs db userId)).1.failedCount = 0) }),
         { st with isSyncing := false },
         (SyncService.runSyncLoop env db (DatabaseService.getUnsyncedHealthLogs db userId)).2.1,
         (SyncService.runSyncLoop env db (DatabaseService.getUnsyncedHealthLogs db userId)).2.2)) := by
  simp only [SyncService.syncHealthLogs, hguard, honline, Bool.not_true, Bool.false_eq_true,
    if_false, if_neg hdev, if_neg hauth]

/-- C1: a sync call that passes its preconditions returns the zero result
immediately on an empty backlog (no upload attempted, store untouched), and
otherwise its result satisfies `success = (syncedCount > 0 OR failedCount = 0)`. -/
theorem sync_success_formula (env : SyncEnv) (st : SyncServiceState) (db : DB) (userId : Nat)
    (hguard : st.isSyncing = false) (hdev : st.deviceId ≠ none)
    (honline : env.isOnline = true) (hauth : env.supabaseUser ≠ none) :
    (DatabaseService.getUnsyncedHealthLogs db userId = [] →
      SyncService.syncHealthLogs env st db userId =
        (.ok { success := true, syncedCount := 0, failedCount := 0, errors := [] },
         { st with isSyncing := false }, db, [])) ∧
    ∀ r, (SyncService.syncHealthLogs env st db userId).1 = .ok r →
      (r.success = true ↔ (r.syncedCount > 0 ∨ r.failedCount = 0)) := by
  have hrun := syncHealthLogs_eq_branch env st db userId hguard hdev honline hauth
  constructor
  · intro hempty
    rw [hrun]
    simp [hempty]
  · intro r hr
    rw [hrun] at hr
    by_cases hempty : (DatabaseService.getUnsyncedHealthLogs db userId).isEmpty
    · rw [if_pos hempty] at hr
      simp only [Except.ok.injEq] at hr
      subst hr
      simp
    · rw [if_neg hempty] at hr
      simp only [Except.ok.injEq] at hr
      subst hr
      simp

/-- Witness state for the sync-engine claims: initialized, not syncing. -/
def stW : SyncServiceState :=
  { isSyncing := false, deviceId := some "device-1" }

/-- Witness environment: online, authenticated, the upload of local row 2
fails with a network error, the local driver never fails. -/
def envW : SyncEnv :=
  { isOnline := true, supabaseUser := some "remote-user",
    upload := fun i => if i = 2 then .error "Network connection lost" else .ok "cloud-1",
    markFail := fun _ => none, now := 100 }

/-- Witness store: two unsynced rows of owner 1. -/
def dbW : DB :=
  { rows := [
      { id := 1, user_id := 1, encrypted_data := "p1", created_at := 0, updated_at := 0,
        synced_at := none, cloud_id := none },
      { id := 2, user_id := 1, encrypted_data := "p2", created_at := 1, updated_at := 1,
        synced_at := none, cloud_id := none }],
    nextId := 3 }

/-- Witness for C1 at a concrete engine state, environment and store. -/
theorem sync_success_formula_witness :
    stW.isSyncing = false ∧ stW.deviceId ≠ none ∧ envW.isOnline = true ∧
    envW.supabaseUser ≠ none ∧
    ∀ r, (SyncService.syncHealthLogs envW stW dbW 1).1 = .ok r →
      (r.success = true ↔ (r.syncedCount > 0 ∨ r.failedCount = 0)) :=
  ⟨rfl, by decide, rfl, by decide,
   (sync_success_formula envW stW dbW 1 rfl (by decide) rfl (by decide)).2⟩

/-- C2: in the per-record loop, every failing record contributes exactly its
error entry (localId, message, retryability) in order, the failure count is
the number of such entries, and every fetched unsynced record is accounted
for as exactly one of syncedCount or failedCount — one failure never aborts
the batch. -/
theorem sync_per_record_accounting (env : SyncEnv) (st : SyncServiceState) (db : DB)
    (userId : Nat) (hguard : st.isSyncing = false) (hdev : st.deviceId ≠ none)
    (honline : env.isOnline = true) (hauth : env.supabaseUser ≠ none) :
    ∃ r, (SyncService.syncHealthLogs env st db userId).1 = .ok r ∧
      r.errors = (DatabaseService.getUnsyncedHealthLogs db userId).filterMap
        (SyncService.recordOutcome env) ∧
      r.failedCount = r.errors.length ∧
      r.syncedCount + r.failedCount =
        (DatabaseService.getUnsyncedHealthLogs db userId).length := by
  have hrun := syncHealthLogs_eq_branch env st db userId hguard hdev honline hauth
  by_cases hempty : (DatabaseService.getUnsyncedHealthLogs db userId).isEmpty
  · refine ⟨{ success := true, syncedCount := 0, failedCount := 0, errors := [] }, ?_⟩
    rw [hrun, if_pos hempty]
    have he : DatabaseService.getUnsyncedHealthLogs db userId = [] :=
      List.isEmpty_iff.mp hempty
    simp [he]
  · obtain ⟨h1, h2, h3, h4⟩ :=
      runSyncLoop_spec env (DatabaseService.getUnsyncedHealthLogs db userId) db
    refine ⟨SyncResult.mk
      (decide ((SyncService.runSyncLoop env db
          (DatabaseService.getUnsyncedHealthLogs db userId)).1.syncedCount > 0) ||
        decide ((SyncService.runSyncLoop env db
          (DatabaseService.getUnsyncedHealthLogs db userId)).1.failedCount = 0))
      ((SyncService.runSyncLoop env db
        (DatabaseService.getUnsyncedHealthLogs db userId)).1.syncedCount)
      ((SyncService.runSyncLoop env db
        (DatabaseService.getUnsyncedHealthLogs db userId)).1.failedCount)
      ((SyncService.runSyncLoop env db
        (DatabaseService.getUnsyncedHealthLogs db userId)).1.errors), ?_, ?_, ?_, ?_⟩
    · rw [hrun, if_neg hempty]
    · simpa using h1
    · simpa using h2.trans (congrArg List.length h1.symm)
    · simpa using h3

/-- Witness for C2 at the concrete engine state, environment and store. -/
theorem sync_per_record_accounting_witness :
    stW.isSyncing = false ∧ stW.deviceId ≠ none ∧ envW.isOnline = true ∧
    envW.supabaseUser ≠ none ∧
    ∃ r, (SyncService.syncHealthLogs envW stW dbW 1).1 = .ok r ∧
      r.errors = (DatabaseService.getUnsyncedHealthLogs dbW 1).filterMap
        (SyncService.recordOutcome envW) ∧
      r.failedCount = r.errors.length ∧
      r.syncedCount + r.failedCount = (DatabaseService.getUnsyncedHealthLogs dbW 1).length :=
  ⟨rfl, by decide, rfl, by decide,
   sync_per_record_accounting envW stW dbW 1 rfl (by decide) rfl (by decide)⟩

/-- C3: a sync call made while `isSyncing` is already set fails immediately
with the `Sync already in progress` error, touching neither the service
state, the store, nor the remote (empty upload trace); and a call that
passes the guard ends with `isSyncing` reset to false on every exit path. -/
theorem sync_reentrancy_guard (env : SyncEnv) (st : SyncServiceState) (db : DB)
    (userId : Nat) :
    (st.isSyncing = true →
      SyncService.syncHealthLogs env st db userId =
        (.error "Sync already in progress", st, db, [])) ∧
    (st.isSyncing = false →
      (SyncService.syncHealthLogs env st db userId).2.1.isSyncing = false) := by
  constructor
  · intro h
    simp [SyncService.syncHealthLogs, h]
  · intro h
    by_cases h2 : st.deviceId = none
    · simp [SyncService.syncHealthLogs, h, h2]
    · by_cases h3 : env.isOnline = true
      · by_cases h4 : env.supabaseUser = none
        · simp [SyncService.syncHealthLogs, h, h2, h3, h4]
        · by_cases h5 : (DatabaseService.getUnsyncedHealthLogs db userId).isEmpty
          · simp [SyncService.syncHealthLogs, h, h2, h3, h4, h5]
          · simp [SyncService.syncHealthLogs, h, h2, h3, h4, h5]
      · have h3f : env.isOnline = false := by
          cases ho : env.isOnline
          · rfl
          · exact absurd ho h3
        simp [SyncService.syncHealthLogs, h, h2, h3f]

/-- Witness for C3: a concrete in-flight state rejects a second call. -/
theorem sync_reentrancy_guard_witness :
    (⟨true, some "device-1"⟩ : SyncServiceState).isSyncing = true ∧
    SyncService.syncHealthLogs envW ⟨true, some "device-1"⟩ dbW 1 =
      (.error "Sync already in progress", ⟨true, some "device-1"⟩, dbW, []) :=
  ⟨rfl, (sync_reentrancy_guard envW ⟨true, some "device-1"⟩ dbW 1).1 rfl⟩

theorem find?_map_id_preserving (rows : List HealthLogRecord)
    (f : HealthLogRecord → HealthLogRecord) (hf : ∀ r, (f r).id = r.id) (i : Nat) :
    (rows.map f).find? (fun r => r.id == i) = (rows.find? (fun r => r.id == i)).map f := by
  induction rows with
  | nil => simp
  | cons r t ih =>
    by_cases h : r.id = i
    · rw [List.map_cons, List.find?_cons_of_pos, List.find?_cons_of_pos] <;>
        simp [hf, h]
    · rw [List.map_cons, List.find?_cons_of_neg, List.find?_cons_of_neg]
      · exact ih
      · simp [h]
      · simp [hf, h]

theorem getById_markSynced_other (db : DB) (i : Nat) (c : String) (t : Nat)
    (target : Nat) (h : i ≠ target) :
    DatabaseService.getHealthLogById (DatabaseService.markHealthLogAsSynced db i c t) target =
      DatabaseService.getHealthLogById db target := by
  unfold DatabaseService.getHealthLogById DatabaseService.markHealthLogAsSynced
  rw [find?_map_id_preserving]
  · cases hfind : db.rows.find? (fun r => r.id == target) with
    | none => rfl
    | some r =>
      have hr := List.find?_some hfind
      simp only [beq_iff_eq] at hr
      have hri : r.id ≠ i := by
        intro he
        exact h (by rw [← he]; exact hr)
      simp [hri]
  · intro r
    by_cases hr : r.id = i <;> simp [hr]

theorem find?_id_of_mem_nodup (rows : List HealthLogRecord) (log : HealthLogRecord)
    (hmem : log ∈ rows) (hnodup : (rows.map (fun r => r.id)).Nodup) :
    rows.find? (fun r => r.id == log.id) = some log := by
  induction rows with
  | nil => cases hmem
  | cons r t ih =>
    rw [List.map_cons, List.nodup_cons] at hnodup
    rcases List.mem_cons.mp hmem with he | ht
    · subst he
      rw [List.find?_cons_of_pos]
      simp
    · have hne : r.id ≠ log.id := by
        intro he
        exact hnodup.1 (he ▸ List.mem_map.mpr ⟨log, ht, rfl⟩)
      rw [List.find?_cons_of_neg]
      · exact ih ht hnodup.2
      · simp [hne]

theorem runSyncLoop_preserves_target (env : SyncEnv) (target : Nat)
    (hmk : env.markFail target ≠ none) (logs : List HealthLogRecord) :
    ∀ db : DB,
      DatabaseService.getHealthLogById (SyncService.runSyncLoop env db logs).2.1 target =
        DatabaseService.getHealthLogById db target := by
  induction logs with
  | nil => intro db; simp [SyncService.runSyncLoop]
  | cons log rest ih =>
    intro db
    cases hup : SyncService.uploadHealthLog env log with
    | error m =>
      simp only [SyncService.runSyncLoop, hup]
      exact ih db
    | ok cloudId =>
      cases hms : markSyncedOutcome env log.id with
      | some m =>
        simp only [SyncService.runSyncLoop, hup, hms]
        exact ih db
      | none =>
        have hne : log.id ≠ target := by
          intro he
          rw [he] at hms
          unfold markSyncedOutcome at hms
          cases hmf : env.markFail target with
          | none => exact hmk hmf
          | some m => rw [hmf] at hms; simp at hms
        simp only [SyncService.runSyncLoop, hup, hms]
        rw [ih (DatabaseService.markHealthLogAsSynced db log.id cloudId env.now)]
        exact getById_markSynced_other db log.id cloudId env.now target hne

/-- C9: when a record's remote upload succeeds but the local `markSynced`
write throws, the record is counted as failed (its error entry, carrying the
wrapped driver message, appears in the errors list), the batch still accounts
for every record exactly once, and the record's local row keeps a NULL
`synced_at`, so it is still reported unsynced afterwards and will be
re-uploaded by a later sync. -/
theorem sync_marksynced_failure_counts_failed (env : SyncEnv) (st : SyncServiceState)
    (db : DB) (userId : Nat) (log : HealthLogRecord) (cid m : String)
    (hguard : st.isSyncing = false) (hdev : st.deviceId ≠ none)
    (honline : env.isOnline = true) (hauth : env.supabaseUser ≠ none)
    (hmem : log ∈ DatabaseService.getUnsyncedHealthLogs db userId)
    (hnodup : (db.rows.map (fun r => r.id)).Nodup)
    (hup : env.upload log.id = .ok cid)
    (hmk : env.markFail log.id = some m) :
    ∃ r, (SyncService.syncHealthLogs env st db userId).1 = .ok r ∧
      syncErrorEntry log.id ("Failed to mark health log as synced: " ++ m) ∈ r.errors ∧
      r.syncedCount + r.failedCount =
        (DatabaseService.getUnsyncedHealthLogs db userId).length ∧
      DatabaseService.getHealthLogById
        (SyncService.syncHealthLogs env st db userId).2.2.1 log.id = some log ∧
      log ∈ DatabaseService.getUnsyncedHealthLogs
        (SyncService.syncHealthLogs env st db userId).2.2.1 userId := by
  have hrun := syncHealthLogs_eq_branch env st db userId hguard hdev honline hauth
  have hempty : ¬ (DatabaseService.getUnsyncedHealthLogs db userId).isEmpty := by
    intro h
    rw [List.isEmpty_iff.mp h] at hmem
    cases hmem
  have hout : SyncService.recordOutcome env log =
      some (syncErrorEntry log.id ("Failed to mark health log as synced: " ++ m)) := by
    simp [SyncService.recordOutcome, SyncService.uploadHealthLog, hup, markSyncedOutcome, hmk]
  obtain ⟨h1, h2, h3, h4⟩ :=
    runSyncLoop_spec env (DatabaseService.getUnsyncedHealthLogs db userId) db
  have hdb : (SyncService.syncHealthLogs env st db userId).2.2.1 =
      (SyncService.runSyncLoop env db (DatabaseService.getUnsyncedHealthLogs db userId)).2.1 := by
    rw [hrun, if_neg hempty]
  have hmemrows : log ∈ db.rows :=
    (List.mem_filter.mp hmem).1
  have hprops : (log.user_id == userId && log.synced_at == none) = true :=
    (List.mem_filter.mp hmem).2
  have hfind : DatabaseService.getHealthLogById db log.id = some log :=
    find?_id_of_mem_nodup db.rows log hmemrows hnodup
  have hpres : DatabaseService.getHealthLogById
      (SyncService.runSyncLoop env db
        (DatabaseService.getUnsyncedHealthLogs db userId)).2.1 log.id = some log := by
    rw [runSyncLoop_preserves_target env log.id (by rw [hmk]; simp) _ db]
    exact hfind
  refine ⟨SyncResult.mk
    (decide ((SyncService.runSyncLoop env db
        (DatabaseService.getUnsyncedHealthLogs db userId)).1.syncedCount > 0) ||
      decide ((SyncService.runSyncLoop env db
        (DatabaseService.getUnsyncedHealthLogs db userId)).1.failedCount = 0))
    ((SyncService.runSyncLoop env db
      (DatabaseService.getUnsyncedHealthLogs db userId)).1.syncedCount)
    ((SyncService.runSyncLoop env db
      (DatabaseService.getUnsyncedHealthLogs db userId)).1.failedCount)
    ((SyncService.runSyncLoop env db
      (DatabaseService.getUnsyncedHealthLogs db userId)).1.errors), ?_, ?_, ?_, ?_, ?_⟩
  · rw [hrun, if_neg hempty]
  · simp only []
    rw [h1]
    exact List.mem_filterMap.mpr ⟨log, hmem, hout⟩
  · simpa using h3
  · rw [hdb]
    exact hpres
  · rw [hdb]
    refine List.mem_filter.mpr ⟨?_, hprops⟩
    exact List.mem_of_find?_eq_some hpres

/-- Witness environment for the markSynced-failure scenario: uploads succeed,
the local write-back always fails. -/
def envW9 : SyncEnv :=
  { isOnline := true, supabaseUser := some "remote-user",
    upload := fun _ => .ok "cloud-9",
    markFail := fun _ => some "database disk is locked", now := 50 }

/-- Witness row for the markSynced-failure scenario. -/
def logW9 : HealthLogRecord :=
  { id := 1, user_id := 1, encrypted_data := "p1", created_at := 0, updated_at := 0,
    synced_at := none, cloud_id := none }

/-- Witness for C9 at a concrete environment and store. -/
theorem sync_marksynced_failure_counts_failed_witness :
    stW.isSyncing = false ∧ stW.deviceId ≠ none ∧ envW9.isOnline = true ∧
    envW9.supabaseUser ≠ none ∧
    logW9 ∈ DatabaseService.getUnsyncedHealthLogs dbW 1 ∧
    (dbW.rows.map (fun r => r.id)).Nodup ∧
    envW9.upload logW9.id = .ok "cloud-9" ∧
    envW9.markFail logW9.id = some "database disk is locked" ∧
    ∃ r, (SyncService.syncHealthLogs envW9 stW dbW 1).1 = .ok r ∧
      syncErrorEntry logW9.id
        ("Failed to mark health log as synced: " ++ "database disk is locked") ∈ r.errors ∧
      r.syncedCount + r.failedCount = (DatabaseService.getUnsyncedHealthLogs dbW 1).length ∧
      DatabaseService.getHealthLogById
        (SyncService.syncHealthLogs envW9 stW dbW 1).2.2.1 logW9.id = some logW9 ∧
      logW9 ∈ DatabaseService.getUnsyncedHealthLogs
        (SyncService.syncHealthLogs envW9 stW dbW 1).2.2.1 1 :=
  ⟨rfl, by decide, rfl, by decide, by decide, by decide, rfl, rfl,
   sync_marksynced_failure_counts_failed envW9 stW dbW 1 logW9 "cloud-9"
     "database disk is locked" rfl (by decide) rfl (by decide) (by decide) (by decide) rfl rfl⟩

/-- The record-store mutations reachable through `DatabaseService`
(src: part_007): INSERT, payload UPDATE, DELETE, markSynced, clearAll. -/
inductive DBOp where
  | create (userId : Nat) (encryptedData : String) (now : Nat)
  | update (id : Nat) (encryptedData : String) (now : Nat)
  | delete (id : Nat)
  | markSynced (id : Nat) (cloudId : String) (now : Nat)
  | clearAll
  deriving DecidableEq

/-- Apply one store mutation. -/
def applyDBOp (db : DB) : DBOp → DB
  | .create u d t => (DatabaseService.createHealthLog db u d t).1
  | .update i d t => DatabaseService.updateHealthLog db i d t
  | .delete i => DatabaseService.deleteHealthLog db i
  | .markSynced i c t => DatabaseService.markHealthLogAsSynced db i c t
  | .clearAll => DatabaseService.clearAllData db

/-- Run a sequence of store mutations. -/
def runDBOps (db : DB) (ops : List DBOp) : DB :=
  ops.foldl applyDBOp db

theorem applyDBOp_preserves (db : DB) (op : DBOp)
    (h : ∀ r ∈ db.rows,
      (r.synced_at = none ∧ r.cloud_id = none) ∨ (r.synced_at ≠ none ∧ r.cloud_id ≠ none)) :
    ∀ r ∈ (applyDBOp db op).rows,
      (r.synced_at = none ∧ r.cloud_id = none) ∨ (r.synced_at ≠ none ∧ r.cloud_id ≠ none) := by
  cases op with
  | create u d t =>
    intro r hr
    simp only [applyDBOp, DatabaseService.createHealthLog, List.mem_append,
      List.mem_singleton] at hr
    rcases hr with hr | hr
    · exact h r hr
    · subst hr
      exact Or.inl ⟨rfl, rfl⟩
  | update i d t =>
    intro r hr
    simp only [applyDBOp, DatabaseService.updateHealthLog, List.mem_map] at hr
    obtain ⟨s, hs, hrs⟩ := hr
    subst hrs
    by_cases hsi : s.id = i
    · simpa [hsi] using h s hs
    · simpa [hsi] using h s hs
  | delete i =>
    intro r hr
    simp only [applyDBOp, DatabaseService.deleteHealthLog, List.mem_filter] at hr
    exact h r hr.1
  | markSynced i c t =>
    intro r hr
    simp only [applyDBOp, DatabaseService.markHealthLogAsSynced, List.mem_map] at hr
    obtain ⟨s, hs, hrs⟩ := hr
    subst hrs
    by_cases hsi : s.id = i
    · simp [hsi]
    · simpa [hsi] using h s hs
  | clearAll =>
    intro r hr
    simp [applyDBOp, DatabaseService.clearAllData] at hr

theorem runDBOps_preserves (ops : List DBOp) :
    ∀ db : DB,
      (∀ r ∈ db.rows,
        (r.synced_at = none ∧ r.cloud_id = none) ∨ (r.synced_at ≠ none ∧ r.cloud_id ≠ none)) →
      ∀ r ∈ (runDBOps db ops).rows,
        (r.synced_at = none ∧ r.cloud_id = none) ∨ (r.synced_at ≠ none ∧ r.cloud_id ≠ none) := by
  induction ops with
  | nil => intro db h; simpa [runDBOps] using h
  | cons op rest ih =>
    intro db h
    have hstep := applyDBOp_preserves db op h
    simpa [runDBOps, List.foldl_cons] using ih (applyDBOp db op) hstep

/-- C5: every row of every store reachable from the freshly-migrated store by
record-store operations has `synced_at` and `cloud_id` both null or both
non-null; inserts create both null, payload updates leave the pair of every
row untouched, and `markSynced` sets both together on the addressed row. -/
theorem recordStore_sync_fields_invariant :
    (∀ ops : List DBOp, ∀ r ∈ (runDBOps initialDB ops).rows,
      (r.synced_at = none ∧ r.cloud_id = none) ∨ (r.synced_at ≠ none ∧ r.cloud_id ≠ none)) ∧
    (∀ db u d t, (DatabaseService.createHealthLog db u d t).1.rows.map
        (fun r => (r.synced_at, r.cloud_id)) =
      db.rows.map (fun r => (r.synced_at, r.cloud_id)) ++ [(none, none)]) ∧
    (∀ db i d t, (DatabaseService.updateHealthLog db i d t).rows.map
        (fun r => (r.synced_at, r.cloud_id)) =
      db.rows.map (fun r => (r.synced_at, r.cloud_id))) ∧
    (∀ db i c t, ∀ r ∈ (DatabaseService.markHealthLogAsSynced db i c t).rows,
      r.id = i → r.synced_at = some t ∧ r.cloud_id = some c) := by
  refine ⟨?_, ?_, ?_, ?_⟩
  · intro ops
    exact runDBOps_preserves ops initialDB (by simp [initialDB])
  · intro db u d t
    simp [DatabaseService.createHealthLog]
  · intro db i d t
    simp only [DatabaseService.updateHealthLog, List.map_map]
    congr 1
    funext r
    by_cases hri : r.id = i <;> simp [hri]
  · intro db i c t r hr hid
    simp only [DatabaseService.markHealthLogAsSynced, List.mem_map] at hr
    obtain ⟨s, hs, hrs⟩ := hr
    by_cases hsi : s.id = i
    · subst hrs
      simp [hsi]
    · subst hrs
      simp only [if_neg hsi] at hid
      exact absurd hid hsi

/-- Witness for C5: a created-then-synced row satisfies the invariant. -/
theorem recordStore_sync_fields_invariant_witness :
    (⟨1, 1, "payload", 5, 5, some 6, some "cloud-5"⟩ : HealthLogRecord) ∈
      (runDBOps initialDB [DBOp.create 1 "payload" 5, DBOp.markSynced 1 "cloud-5" 6]).rows ∧
    (((⟨1, 1, "payload", 5, 5, some 6, some "cloud-5"⟩ : HealthLogRecord).synced_at = none ∧
       (⟨1, 1, "payload", 5, 5, some 6, some "cloud-5"⟩ : HealthLogRecord).cloud_id = none) ∨
     ((⟨1, 1, "payload", 5, 5, some 6, some "cloud-5"⟩ : HealthLogRecord).synced_at ≠ none ∧
       (⟨1, 1, "payload", 5, 5, some 6, some "cloud-5"⟩ : HealthLogRecord).cloud_id ≠ none)) :=
  ⟨by decide, recordStore_sync_fields_invariant.1
    [DBOp.create 1 "payload" 5, DBOp.markSynced 1 "cloud-5" 6]
    ⟨1, 1, "payload", 5, 5, some 6, some "cloud-5"⟩ (by decide)⟩

theorem decrypt_failure_message (c key : String) (hc : c ≠ "") (hk : key ≠ "")
    (hfail : (EncryptionService.decrypt c key).success = false) :
    EncryptionService.decrypt c key =
      { decryptedData := "", success := false,
        error := some "Decryption failed: Invalid key or corrupted data" } := by
  unfold EncryptionService.decrypt at hfail ⊢
  rw [if_neg (by simp [hc, hk])] at hfail ⊢
  by_cases hd : aesDecryptRaw c key = ""
  · rw [if_pos hd]
  · rw [if_neg hd] at hfail
    simp at hfail

/-- C10: `delete(localId)` on an existing row whose payload does not decrypt
under the service's key fails with the wrapped decryption error (not the
not-found error), and the store is unchanged — the row is not removed. -/
theorem delete_undecryptable_row_fails (key : String) (db : DB) (healthLogId : Nat)
    (row : HealthLogRecord)
    (hrow : DatabaseService.getHealthLogById db healthLogId = some row)
    (hne : row.encrypted_data ≠ "") (hk : key ≠ "")
    (hfail : (EncryptionService.decrypt row.encrypted_data key).success = false) :
    HealthLogService.deleteHealthLog key db healthLogId =
      (.error ("Failed to delete health log: Failed to retrieve health log: " ++
        "Decryption failed: Invalid key or corrupted data"), db) ∧
    ("Failed to delete health log: Failed to retrieve health log: " ++
        "Decryption failed: Invalid key or corrupted data") ≠
      "Failed to delete health log: Health log not found" := by
  have hdec := decrypt_failure_message row.encrypted_data key hne hk hfail
  have hget : HealthLogService.getHealthLog key db healthLogId =
      .error ("Failed to retrieve health log: " ++
        "Decryption failed: Invalid key or corrupted data") := by
    unfold HealthLogService.getHealthLog
    rw [hrow]
    simp only [hdec]
    rfl
  constructor
  · unfold HealthLogService.deleteHealthLog
    rw [hget]
    rfl
  · decide

/-- Witness row whose payload is not a decryptable ciphertext. -/
def dbC10 : DB :=
  { rows := [{ id := 7, user_id := 1, encrypted_data := "garbage", created_at := 0,
               updated_at := 0, synced_at := none, cloud_id := none }],
    nextId := 8 }

/-- Witness for C10 at a concrete corrupted row. -/
theorem delete_undecryptable_row_fails_witness :
    DatabaseService.getHealthLogById dbC10 7 =
      some ⟨7, 1, "garbage", 0, 0, none, none⟩ ∧
    ("garbage" : String) ≠ "" ∧ ("k1" : String) ≠ "" ∧
    (EncryptionService.decrypt "garbage" "k1").success = false ∧
    (HealthLogService.deleteHealthLog "k1" dbC10 7 =
      (.error ("Failed to delete health log: Failed to retrieve health log: " ++
        "Decryption failed: Invalid key or corrupted data"), dbC10) ∧
     ("Failed to delete health log: Failed to retrieve health log: " ++
        "Decryption failed: Invalid key or corrupted data") ≠
      "Failed to delete health log: Health log not found") :=
  ⟨by decide, by decide, by decide, by decide,
   delete_undecryptable_row_fails "k1" dbC10 7 ⟨7, 1, "garbage", 0, 0, none, none⟩
     (by decide) (by decide) (by decide) (by decide)⟩

theorem sanitize_merge_id (existingLog : HealthLog) (data : UpdateHealthLogData) :
    (sanitizeUpdatedLog (mergePatch existingLog data)).id = existingLog.id := by
  simp [sanitizeUpdatedLog, mergePatch]

/-- C6 (amended): `update(localId, patch)` requires `patch.id` to be a
non-whitespace non-empty string — otherwise it fails with the ID validation
error and leaves the store untouched; a `patch.id` that differs from the
stored record's domain id is NOT rejected, and on success the persisted
record's domain id always equals the pre-existing decrypted record's id. -/
theorem update_id_required_and_preserved (key : String) (db : DB) (healthLogId : Nat)
    (data : UpdateHealthLogData) (iv now : Nat) :
    (jsTrim data.id = "" →
      HealthLogService.updateHealthLog key db healthLogId data iv now =
        (.error "Validation failed: ID is required for updates and must be a string", db)) ∧
    (∀ r, (HealthLogService.updateHealthLog key db healthLogId data iv now).1 = .ok r →
      ∃ h, HealthLogService.getHealthLog key db healthLogId = .ok (some h) ∧
        r.id = h.id) := by
  constructor
  · intro h
    simp [HealthLogService.updateHealthLog, h]
  · intro r hr
    unfold HealthLogService.updateHealthLog at hr
    by_cases hid : jsTrim data.id = ""
    · rw [if_pos hid] at hr
      simp at hr
    · rw [if_neg hid] at hr
      cases hget : HealthLogService.getHealthLog key db healthLogId with
      | error e =>
        rw [hget] at hr
        simp at hr
      | ok o =>
        cases o with
        | none =>
          rw [hget] at hr
          simp at hr
        | some existingLog =>
          rw [hget] at hr
          simp only [] at hr
          by_cases hv : (validateHealthLogData
              (sanitizeUpdatedLog (mergePatch existingLog data)) now).isValid
          · rw [if_pos hv] at hr
            by_cases he : (EncryptionService.encrypt
                (serializeHealthLog (sanitizeUpdatedLog (mergePatch existingLog data)))
                key iv).success
            · rw [if_pos he] at hr
              simp only [Except.ok.injEq] at hr
              exact ⟨existingLog, rfl, hr ▸ sanitize_merge_id existingLog data⟩
            · rw [if_neg he] at hr
              simp at hr
          · rw [if_neg hv] at hr
            simp at hr

/-- The decrypted domain record stored for the counterexample to the claim's
id-match requirement. -/
def hlC6 : HealthLog :=
  { id := "log1", title := "Morning Headache", description := "Dull ache",
    category := "symptom", severity := some 2, tags := [], date := "2024-01-15",
    notes := none, attachments := none }

/-- Store holding `hlC6` encrypted under key `"k1"`. -/
def dbC6 : DB :=
  { rows := [{ id := 7, user_id := 1,
               encrypted_data := (EncryptionService.encrypt (serializeHealthLog hlC6)
                 "k1" 0).encryptedData,
               created_at := 0, updated_at := 0, synced_at := none, cloud_id := none }],
    nextId := 8 }

/-- A patch whose domain id differs from the stored record's id. -/
def patchC6 : UpdateHealthLogData :=
  { id := "different-id", title := none, description := none, category := none,
    severity := none, tags := none, date := none, notes := none, attachments := none }

/-- Counterexample to C6 as stated: the patch's id differs from the stored
record's decrypted id, yet the update succeeds (returning the record with the
original id) instead of failing with a validation error. -/
theorem update_id_mismatch_accepted :
    patchC6.id ≠ hlC6.id ∧
    (HealthLogService.getHealthLog "k1" dbC6 7).toOption = some (some hlC6) ∧
    ((HealthLogService.updateHealthLog "k1" dbC6 7 patchC6 1 (10 ^ 30)).1).toOption =
      some hlC6 := by
  refine ⟨by decide, by decide, by decide⟩

/-- A patch with a whitespace-only id. -/
def patchC6blank : UpdateHealthLogData :=
  { id := "  ", title := none, description := none, category := none,
    severity := none, tags := none, date := none, notes := none, attachments := none }

/-- Witness for the amended C6: a blank patch id is rejected with the exact
validation error and the store is untouched. -/
theorem update_id_required_and_preserved_witness :
    jsTrim patchC6blank.id = "" ∧
    HealthLogService.updateHealthLog "k1" dbC6 7 patchC6blank 1 (10 ^ 30) =
      (.error "Validation failed: ID is required for updates and must be a string", dbC6) :=
  ⟨by decide,
   (update_id_required_and_preserved "k1" dbC6 7 patchC6blank 1 (10 ^ 30)).1 (by decide)⟩

theorem retryRun_count_le (outcome : Nat → Except String SyncResult) (maxRetries : Nat) :
    ∀ (attempts : List Nat) (le : Option String),
      (SyncService.retryRun outcome maxRetries attempts le).2.1 ≤ attempts.length := by
  intro attempts
  induction attempts with
  | nil => intro le; simp [SyncService.retryRun]
  | cons a rest ih =>
    intro le
    cases h : outcome a with
    | ok r => simp [SyncService.retryRun, h]
    | error e =>
      simp only [SyncService.retryRun, h, List.length_cons]
      have := ih (some e)
      omega

theorem retryRun_first_success (outcome : Nat → Except String SyncResult)
    (maxRetries : Nat) :
    ∀ (n a : Nat) (le : Option String) (i : Nat) (r : SyncResult),
      a ≤ i → i < a + n → outcome i = .ok r →
      (∀ j, a ≤ j → j < i → ∃ e, outcome j = .error e) →
      (∀ j, a ≤ j → j < i → j < maxRetries) →
      SyncService.retryRun outcome maxRetries (List.range' a n) le =
        (.ok r, i + 1 - a, (List.range' a (i - a)).map (fun j => 2 ^ (j - 1) * 1000)) := by
  intro n
  induction n with
  | zero =>
    intro a le i r h1 h2 hok hfail hlt
    omega
  | succ k ih =>
    intro a le i r h1 h2 hok hfail hlt
    rw [List.range'_succ]
    by_cases hia : i = a
    · subst hia
      simp [SyncService.retryRun, hok]
    · have hai : a < i := lt_of_le_of_ne h1 fun he => hia he.symm
      obtain ⟨e, he⟩ := hfail a le_rfl hai
      have hrec := ih (a + 1) (some e) i r (by omega) (by omega) hok
        (fun j hj1 hj2 => hfail j (by omega) hj2)
        (fun j hj1 hj2 => hlt j (by omega) hj2)
      simp only [SyncService.retryRun, he]
      rw [hrec, if_pos (hlt a le_rfl hai)]
      have h1' : i - a = (i - (a + 1)) + 1 := by omega
      rw [h1', List.range'_succ]
      simp only [List.map_cons, List.singleton_append, Prod.mk.injEq]
      refine ⟨trivial, by omega, trivial⟩

theorem retryRun_all_fail (outcome : Nat → Except String SyncResult) (maxRetries : Nat) :
    ∀ (n a : Nat) (le : Option String) (e : String),
      1 ≤ n →
      (∀ j, a ≤ j → j < a + n → ∃ er, outcome j = .error er) →
      outcome (a + n - 1) = .error e →
      SyncService.retryRun outcome maxRetries (List.range' a n) le =
        (.error e, n,
         ((List.range' a n).filter (fun j => decide (j < maxRetries))).map
           (fun j => 2 ^ (j - 1) * 1000)) := by
  intro n
  induction n with
  | zero =>
    intro a le e h1 hall hlast
    omega
  | succ k ih =>
    intro a le e h1 hall hlast
    rcases Nat.eq_zero_or_pos k with hk | hk
    · subst hk
      have ha : outcome a = .error e := by
        have h' : a + 1 - 1 = a := by omega
        rw [h'] at hlast
        exact hlast
      rw [List.range'_succ]
      by_cases ham : a < maxRetries <;>
        simp [SyncService.retryRun, ha, List.filter_cons, ham]
    · obtain ⟨ea, hea⟩ := hall a le_rfl (by omega)
      have hrec := ih (a + 1) (some ea) e hk
        (fun j hj1 hj2 => hall j (by omega) (by omega))
        (by
          have h' : a + 1 + k - 1 = a + (k + 1) - 1 := by omega
          rw [h']
          exact hlast)
      rw [List.range'_succ]
      simp only [SyncService.retryRun, hea]
      rw [hrec]
      by_cases ham : a < maxRetries <;>
        simp [List.filter_cons, ham, Nat.add_comm]

theorem range'_filter_lt (n : Nat) (h : 1 ≤ n) :
    (List.range' 1 n).filter (fun j => decide (j < n)) = List.range' 1 (n - 1) := by
  obtain ⟨m, rfl⟩ : ∃ m, n = m + 1 := ⟨n - 1, by omega⟩
  rw [List.range'_concat, List.filter_append]
  have h1 : (List.range' 1 m).filter (fun j => decide (j < m + 1)) = List.range' 1 m := by
    apply List.filter_eq_self.mpr
    intro x hx
    have hb := List.mem_range'_1.mp hx
    simp only [decide_eq_true_eq]
    omega
  have h2 : ([1 + 1 * m].filter (fun j => decide (j < m + 1))) = [] := by
    have hn : ¬ (1 + 1 * m < m + 1) := by omega
    simp [hn]
    omega
  rw [h1, h2, List.append_nil]
  simp

/-- C7: `retryWithBackoff` calls `sync` at most `maxRetries` times; if the
first success comes at attempt `i`, it returns that result after exactly `i`
calls, having slept `2^(attempt-1)` seconds (in ms: 1000, 2000, 4000, …)
after each of the failed attempts `1..i-1` and never after the last attempt;
if every attempt fails, it makes exactly `maxRetries` calls, sleeps after all
but the last attempt, and re-raises the last attempt's error untouched. -/
theorem retry_backoff_spec (outcome : Nat → Except String SyncResult) (maxRetries : Nat) :
    (SyncService.retrySyncWithBackoff outcome maxRetries).2.1 ≤ maxRetries ∧
    (∀ i r, 1 ≤ i → i ≤ maxRetries → outcome i = .ok r →
      (∀ j, 1 ≤ j → j < i → ∃ e, outcome j = .error e) →
      SyncService.retrySyncWithBackoff outcome maxRetries =
        (.ok r, i, (List.range' 1 (i - 1)).map (fun j => 2 ^ (j - 1) * 1000))) ∧
    (1 ≤ maxRetries →
      (∀ j, 1 ≤ j → j ≤ maxRetries → ∃ e, outcome j = .error e) →
      ∃ e, outcome maxRetries = .error e ∧
        SyncService.retrySyncWithBackoff outcome maxRetries =
          (.error e, maxRetries,
           (List.range' 1 (maxRetries - 1)).map (fun j => 2 ^ (j - 1) * 1000))) := by
  refine ⟨?_, ?_, ?_⟩
  · have h := retryRun_count_le outcome maxRetries (List.range' 1 maxRetries) none
    simpa [SyncService.retrySyncWithBackoff] using h
  · intro i r h1 h2 hok hfail
    have h := retryRun_first_success outcome maxRetries maxRetries 1 none i r h1
      (by omega) hok hfail (fun j hj1 hj2 => by omega)
    have hc : i + 1 - 1 = i := by omega
    rw [hc] at h
    exact h
  · intro hmax hall
    obtain ⟨e, he⟩ := hall maxRetries (by omega) le_rfl
    refine ⟨e, he, ?_⟩
    have hlast : outcome (1 + maxRetries - 1) = .error e := by
      have h' : 1 + maxRetries - 1 = maxRetries := by omega
      rw [h']
      exact he
    have h := retryRun_all_fail outcome maxRetries maxRetries 1 none e hmax
      (fun j hj1 hj2 => hall j hj1 (by omega)) hlast
    rw [SyncService.retrySyncWithBackoff, h, range'_filter_lt maxRetries hmax]

/-- Witness sync outcomes: two failures, then success. -/
def outcomeW7 : Nat → Except String SyncResult := fun a =>
  if a = 1 then .error "Sync failed: No internet connection available"
  else if a = 2 then .error "Sync failed: No internet connection available"
  else .ok { success := true, syncedCount := 1, failedCount := 0, errors := [] }

/-- Witness for C7: with three attempts against a remote failing twice then
succeeding, exactly three sync calls are made and the backoff slept 1000 ms
then 2000 ms. -/
theorem retry_backoff_spec_witness :
    1 ≤ 3 ∧ 3 ≤ 3 ∧
    outcomeW7 3 = .ok { success := true, syncedCount := 1, failedCount := 0, errors := [] } ∧
    SyncService.retrySyncWithBackoff outcomeW7 3 =
      (.ok { success := true, syncedCount := 1, failedCount := 0, errors := [] }, 3,
       (List.range' 1 (3 - 1)).map (fun j => 2 ^ (j - 1) * 1000)) :=
  ⟨by decide, by decide, rfl,
   (retry_backoff_spec outcomeW7 3).2.1 3
     { success := true, syncedCount := 1, failedCount := 0, errors := [] }
     (by decide) (by decide) rfl
     (fun j hj1 hj2 => by
       interval_cases j
       · exact ⟨"Sync failed: No internet connection available", rfl⟩
       · exact ⟨"Sync failed: No internet connection available", rfl⟩)⟩

theorem ifchain_or (a b c d e f g h i j : Bool) :
    (if a || b || c || d then true
     else if e || f || g || h then true
     else if i || j then true
     else false) =
    (a || b || c || d || e || f || g || h || i || j) := by
  cases a <;> cases b <;> cases c <;> cases d <;> cases e <;> cases f <;> cases g <;>
    cases h <;> cases i <;> cases j <;> rfl

/-- The claim's classification rule written from the spec's words: network,
timeout, connection or fetch in the lowercased message text, ANY 5xx HTTP
status code, or a rate-limit signal; false for non-`Error` values. -/
def specRetryable (e : JSValue) : Bool :=
  match e with
  | .nonError => false
  | .error msg =>
    let m := jsToLower msg
    jsIncludes m "network" || jsIncludes m "timeout" || jsIncludes m "connection" ||
    jsIncludes m "fetch" ||
    (List.range 100).any (fun i =>
      jsIncludes m (String.mk ['5', Char.ofNat (48 + i / 10), Char.ofNat (48 + i % 10)])) ||
    jsIncludes m "rate limit" || jsIncludes m "429"

/-- The amended classification rule: exactly the status codes 500, 502, 503
and 504 are matched, not every 5xx code. -/
def amendedRetryable (e : JSValue) : Bool :=
  match e with
  | .nonError => false
  | .error msg =>
    let m := jsToLower msg
    jsIncludes m "network" || jsIncludes m "timeout" || jsIncludes m "connection" ||
    jsIncludes m "fetch" || jsIncludes m "500" || jsIncludes m "502" ||
    jsIncludes m "503" || jsIncludes m "504" || jsIncludes m "rate limit" ||
    jsIncludes m "429"

/-- Counterexample to C8 as stated: the message `501` carries a 5xx HTTP
status code, so the claim's rule classifies it retryable, but
`isRetryableError` returns false — the code matches only 500, 502, 503, 504. -/
theorem isRetryable_5xx_counterexample :
    SyncService.isRetryableError (.error "501") = false ∧
    specRetryable (.error "501") = true := by
  constructor
  · decide
  · decide

/-- C8 (amended): `isRetryableError` returns true exactly when the lowercased
message of an `Error` contains one of the substrings network, timeout,
connection, fetch, 500, 502, 503, 504, rate limit, or 429; it returns false
for every other error and for non-`Error` values. -/
theorem isRetryable_matches_amended_rule (e : JSValue) :
    SyncService.isRetryableError e = amendedRetryable e := by
  cases e with
  | nonError => rfl
  | error msg =>
    simp only [SyncService.isRetryableError, amendedRetryable]
    exact ifchain_or _ _ _ _ _ _ _ _ _ _
